import Mathlib

/-!
# Verification of the webhooker submission engine

A shallow embedding, in Lean 4, of the core submission-processing code of
the `webhooker` service (a multi-tenant form/event ingestion server written
in Rust), together with theorems settling the specification claims about:

* the honeypot spam check (`src/submission/honeypot.rs`),
* field sorting into `data` / `extras` (`src/submission/fields.rs`),
* the in-memory fixed-window rate limiter (`src/rate_limit.rs`),
* the durable action queue transitions (`src/db/action_queue.rs`) and the
  worker failure path (`src/worker.rs`),
* template rendering (`src/actions/template.rs`),
* SSRF URL validation (`src/actions/webhook.rs`),
* the crypto helper wire format (`src/crypto.rs`),
* the ingestion pipeline (`src/submission/pipeline.rs`).

Modelling conventions: machine integers are modelled as `Nat` (the Rust
counters involved are non-negative and never overflow in the behaviours
under study; casts that truncate are written with an explicit `% 2 ^ w`);
wall-clock instants and durations are whole seconds as `Nat`; database
tables are association lists; fallible calls return `Option` / `Except`.
External collaborators (the SQL engine, DNS, the AEAD cipher crate) enter
as explicit function parameters, while every in-repository computation is
translated from the Rust source.
-/

namespace Webhooker

/-! ## JSON values

`serde_json::Value`, with objects as ordered association lists (serde's
map preserves unique keys; numbers are modelled as integers — none of the
claims under study depends on non-integral numerics). -/

inductive Json where
  | null
  | bool (b : Bool)
  | num (n : Int)
  | str (s : String)
  | arr (elems : List Json)
  | obj (fields : List (String × Json))

namespace Json

/-- `Value::get(key)` on an object (first binding wins, as in a map with
unique keys); `None` on non-objects. -/
def get : Json → String → Option Json
  | .obj fields, key => fields.lookup key
  | _, _ => none

/-- The `Index` operator `value[key]`: like `get` but yielding `Null` when
absent. -/
def index (j : Json) (key : String) : Json :=
  (j.get key).getD .null

/-- `Value::as_str`. -/
def asStr : Json → Option String
  | .str s => some s
  | _ => none

/-- `Value::as_u64` (integers only, and only when non-negative). -/
def asU64 : Json → Option Nat
  | .num n => if 0 ≤ n then some n.toNat else none
  | _ => none

/-- `Value::as_array`. -/
def asArr : Json → Option (List Json)
  | .arr xs => some xs
  | _ => none

/-- Top-level keys of an object (empty for non-objects). -/
def keys : Json → List String
  | .obj fields => fields.map Prod.fst
  | _ => []

end Json

/-! ## Honeypot check — `src/submission/honeypot.rs` -/

/-- `honeypot::is_spam`: true when the honeypot field is set, non-empty as a
name, and the payload holds a non-empty value at that key. -/
def is_spam (data : Json) (honeypot_field : Option String) : Bool :=
  match honeypot_field with
  | none => false
  | some field =>
    if field.isEmpty then false
    else
      match data.get field with
      | some (.str s) => !s.isEmpty
      | some .null => false
      | none => false
      | some _ => true

/-! ## Field sorting — `src/submission/fields.rs` -/

/-- The defined field names: `defs.as_array()`, defaulting to the empty
array, filter-mapped through `f.get("name").and_then(as_str)`. -/
def definedNames (defs : Json) : List String :=
  (defs.asArr.getD []).filterMap fun f => (f.get "name").bind Json.asStr

/-- `fields::sort_fields`: partition the top-level entries of an object
payload into `data` (keys among the defined field names) and `extras`
(all other keys). Non-objects and a `None` definition list put everything
in `data`. -/
def sort_fields (raw : Json) (field_defs : Option Json) : Json × Json :=
  match raw with
  | .obj entries =>
    match field_defs with
    | none => (.obj entries, .obj [])
    | some defs =>
      let defined_names := definedNames defs
      let split := entries.partition fun kv => defined_names.contains kv.1
      (.obj split.1, .obj split.2)
  | _ => (raw, .obj [])

/-! ## Rate limiter — `src/rate_limit.rs`

One key's entry of `SubmissionRateLimiter` (`(count, window_start)`); `check`
acts on that entry with `now`, `limit`, `window` in seconds. Rust's `Instant`
is modelled as a `Nat` of seconds; `now.duration_since(start)` is truncated
subtraction, matching the monotone clock (`now ≥ start` in any real trace,
and `Nat` subtraction saturates exactly like `duration_since` would panic-free
on a monotone clock). -/

structure RLState where
  count : Nat
  start : Nat
  deriving Repr, DecidableEq

inductive CheckResult where
  | admitted
  | denied (retryAfter : Nat)
  deriving Repr, DecidableEq

/-- `SubmissionRateLimiter::check` on a single entry: reset-and-admit when the
window has elapsed, deny with seconds-until-retry at the limit, otherwise
increment and admit. -/
def check (s : RLState) (now limit window : Nat) : RLState × CheckResult :=
  if window < now - s.start then
    (⟨1, now⟩, .admitted)
  else if limit ≤ s.count then
    (s, .denied (window - (now - s.start)))
  else
    ({ s with count := s.count + 1 }, .admitted)

/-- A fresh key's entry as created by `entries.entry(key).or_insert((0, now))`. -/
def freshEntry (now : Nat) : RLState := ⟨0, now⟩

/-- Number of admitted checks, over a list of check instants, whose post-state
window start equals `ws` — i.e. the admissions charged to the window that
began at `ws`. -/
def admitsWithStart (s : RLState) (limit window : Nat) : List Nat → Nat → Nat
  | [], _ => 0
  | now :: rest, ws =>
    (if (check s now limit window).2 = .admitted ∧ (check s now limit window).1.start = ws
     then 1 else 0) +
      admitsWithStart (check s now limit window).1 limit window rest ws

/-! ## Action queue — `src/db/action_queue.rs`

The `action_queue` table as a list of rows; every transition is the
single-statement SQL of the source, applied atomically. -/

inductive QStatus where
  | pending
  | processing
  | failed
  | completed
  deriving Repr, DecidableEq

structure QueueItem where
  id : Nat
  attempts : Nat
  max_attempts : Nat
  status : QStatus
  last_error : Option String
  next_retry_at : Nat
  completed_at : Option Nat
  deriving Repr, DecidableEq

/-- Modelled from the spec: the `action_queue` table defaults applied by
`enqueue`'s `INSERT INTO action_queue (submission_id, action_id)` — the
migration defining them is not under `src/`; the spec states the row is
created at `status=pending, attempts=0, next_retry_at=now`. -/
def mkPending (id now max_attempts : Nat) : QueueItem :=
  ⟨id, 0, max_attempts, .pending, none, now, none⟩

/-- The `WHERE` predicate of `claim_next`'s inner `SELECT`:
`status IN ('pending', 'failed') AND next_retry_at <= now()`. -/
def claimable (it : QueueItem) (now : Nat) : Bool :=
  (it.status == .pending || it.status == .failed) && decide (it.next_retry_at ≤ now)

/-- `ORDER BY next_retry_at ASC LIMIT 1` over the claimable rows (ties broken
by table order, as the SQL leaves tie order unspecified). -/
def selectNext (q : List QueueItem) (now : Nat) : Option QueueItem :=
  (q.filter (claimable · now)).foldl
    (fun acc it =>
      match acc with
      | none => some it
      | some best => if it.next_retry_at < best.next_retry_at then some it else acc)
    none

/-- `claim_next`: atomically pick the oldest-by-`next_retry_at` claimable row,
set `status = 'processing'`, increment `attempts`, and return the updated
row (or none when there is no work). -/
def claim_next (q : List QueueItem) (now : Nat) : Option QueueItem × List QueueItem :=
  match selectNext q now with
  | none => (none, q)
  | some it =>
    let it' := { it with status := QStatus.processing, attempts := it.attempts + 1 }
    (some it', q.map fun x => if x.id = it.id then it' else x)

/-- `mark_completed`: `status = 'completed', completed_at = now()`. -/
def mark_completed (q : List QueueItem) (id now : Nat) : List QueueItem :=
  q.map fun x =>
    if x.id = id then { x with status := QStatus.completed, completed_at := some now } else x

/-- `mark_failed`: if `attempts >= max_attempts`, set
`status='failed', last_error, completed_at=now()` (note: `next_retry_at` is
left unchanged); else set `status='failed', last_error,
next_retry_at = now() + 2^attempts seconds`. -/
def mark_failed (q : List QueueItem) (id attempts max_attempts : Nat) (error : String)
    (now : Nat) : List QueueItem :=
  if max_attempts ≤ attempts then
    q.map fun x =>
      if x.id = id then
        { x with status := QStatus.failed, last_error := some error,
                 completed_at := some now }
      else x
  else
    let backoff_secs := 2 ^ attempts
    q.map fun x =>
      if x.id = id then
        { x with status := QStatus.failed, last_error := some error,
                 next_retry_at := now + backoff_secs }
      else x

/-! ## Worker failure path — `src/worker.rs`, `process_next`

`process_next` claims an item, executes the module, and on any failure calls
`mark_failed(item.id, item.attempts, item.max_attempts, error)` with the
`attempts` value already incremented by `claim_next`. `workerFailStep` is one
iteration of that loop in which the execution fails. -/

def workerFailStep (q : List QueueItem) (now : Nat) (error : String) : List QueueItem :=
  match claim_next q now with
  | (none, q') => q'
  | (some item, q') => mark_failed q' item.id item.attempts item.max_attempts error now

/-! ## Template expander — `src/actions/template.rs`

`render` applies `TEMPLATE_RE.replace_all` with the pattern
`\{\{(\w+(?:\.\w+)*)\}\}` and replacement `resolve(path).unwrap_or_default()`.
Because the character classes involved (`\w`, `\.`, `\}`) are pairwise
disjoint, the regex's leftmost-first greedy match is exactly: at the first
position where `\x7b\x7b` is followed by a word character, capture the
maximal run consuming word characters, and a dot only when the next
character is again a word character, then require `\x7d\x7d`. The scanner
below implements that directly. `\w` is modelled as the ASCII word class
`[0-9A-Za-z_]` (the regex crate's `\w` is Unicode-aware; the model uses the
same class on both sides of every claim). -/

def isWordChar (c : Char) : Bool :=
  c.isAlphanum || c == '_'

/-- Maximal munch of the capture group's continuation: consume word
characters unconditionally, and a dot only when the next character is a
word character (a dot not followed by a word character cannot be part of
any match of `\w+(?:\.\w+)*` followed by `\}\}`). -/
def scanBody : List Char → List Char × List Char
  | [] => ([], [])
  | [c] => if isWordChar c then ([c], []) else ([], [c])
  | c :: d :: cs =>
    if isWordChar c then
      (c :: (scanBody (d :: cs)).1, (scanBody (d :: cs)).2)
    else if c = '.' ∧ isWordChar d then
      (c :: (scanBody (d :: cs)).1, (scanBody (d :: cs)).2)
    else
      ([], c :: d :: cs)

theorem scanBody_append (cs : List Char) : (scanBody cs).1 ++ (scanBody cs).2 = cs := by
  generalize hn : cs.length = n
  induction n using Nat.strong_induction_on generalizing cs with
  | _ n ih =>
    match cs with
    | [] => simp [scanBody]
    | [c] =>
      by_cases h : isWordChar c <;> simp [scanBody, h]
    | c :: d :: cs =>
      have hlt : (d :: cs).length < n := by subst hn; simp
      have hrec := ih _ hlt (d :: cs) rfl
      by_cases h1 : isWordChar c
      · simpa [scanBody, h1] using hrec
      · by_cases h2 : c = '.' ∧ isWordChar d
        · simpa [scanBody, h1, h2] using hrec
        · simp [scanBody, h1, h2]

theorem scanBody_cons_word {c : Char} (h : isWordChar c) (cs : List Char) :
    (scanBody (c :: cs)).1 ≠ [] := by
  match cs with
  | [] => simp [scanBody, h]
  | d :: cs => simp [scanBody, h]

/-- Once `scanBody` has consumed its whole input, a suffix opened by `'}'`
(neither a word character nor a dot) is left untouched. -/
theorem scanBody_close (xs ys : List Char) (h : (scanBody xs).2 = []) :
    scanBody (xs ++ '}' :: ys) = ((scanBody xs).1, '}' :: ys) := by
  have hb : isWordChar '}' = false := by decide
  have hd : ¬ ('}' : Char) = '.' := by decide
  generalize hn : xs.length = n
  induction n using Nat.strong_induction_on generalizing xs with
  | _ n ih =>
    match xs with
    | [] =>
      match ys with
      | [] => simp [scanBody, hb]
      | y :: ys => simp [scanBody, hb, hd]
    | [c] =>
      by_cases hw : isWordChar c
      · match ys with
        | [] => simp [scanBody, hw, hb, hd]
        | y :: ys => simp [scanBody, hw, hb, hd]
      · simp [scanBody, hw] at h
    | c :: d :: cs =>
      have hlt : (d :: cs).length < n := by subst hn; simp
      by_cases h1 : isWordChar c
      · have h' : (scanBody (d :: cs)).2 = [] := by simpa [scanBody, h1] using h
        have hrec := ih _ hlt (d :: cs) h' rfl
        simp only [List.cons_append] at hrec ⊢
        simp [scanBody, h1, hrec]
      · by_cases h2 : c = '.' ∧ isWordChar d
        · have h' : (scanBody (d :: cs)).2 = [] := by simpa [scanBody, h1, h2] using h
          have hrec := ih _ hlt (d :: cs) h' rfl
          simp only [List.cons_append] at hrec ⊢
          simp [scanBody, h1, h2, hrec]
        · simp [scanBody, h1, h2] at h

/-- Try to match the whole placeholder `\x7b\x7bpath\x7d\x7d` at the head of
the input; on success return the captured path and the input after the
match. -/
def tryPlaceholder : List Char → Option (String × List Char)
  | c1 :: c2 :: cs =>
    if c1 = '{' ∧ c2 = '{' then
      match cs with
      | c3 :: _ =>
        if isWordChar c3 then
          match (scanBody cs).2 with
          | r1 :: r2 :: r' =>
            if r1 = '}' ∧ r2 = '}' then some (⟨(scanBody cs).1⟩, r') else none
          | _ => none
        else none
      | [] => none
    else none
  | _ => none

theorem tryPlaceholder_some {cs : List Char} {p : String} {rest : List Char}
    (h : tryPlaceholder cs = some (p, rest)) :
    ∃ body, cs = '{' :: '{' :: body ++ '}' :: '}' :: rest ∧ p.data = body ∧
      body ≠ [] := by
  match cs with
  | [] => simp [tryPlaceholder] at h
  | [c] => simp [tryPlaceholder] at h
  | c1 :: c2 :: cs' =>
    simp only [tryPlaceholder] at h
    split at h
    case isFalse => simp at h
    case isTrue hbrace =>
      obtain ⟨rfl, rfl⟩ := hbrace
      match cs', h with
      | c3 :: cs'', h =>
        by_cases hword : isWordChar c3
        case neg => simp [hword] at h
        case pos =>
          simp only [hword, if_true] at h
          rcases htail : (scanBody (c3 :: cs'')).2 with _ | ⟨d1, (_ | ⟨d2, r'⟩)⟩ <;>
              rw [htail] at h <;> dsimp only at h
          · simp at h
          · simp at h
          · split at h
            case isFalse => simp at h
            case isTrue hclose =>
              obtain ⟨rfl, rfl⟩ := hclose
              obtain ⟨rfl, rfl⟩ : (⟨(scanBody (c3 :: cs'')).1⟩ : String) = p ∧ r' = rest := by
                simpa using h
              refine ⟨(scanBody (c3 :: cs'')).1, ?_, rfl, scanBody_cons_word hword cs''⟩
              have h1 := scanBody_append (c3 :: cs'')
              rw [htail] at h1
              conv_lhs => rw [← h1]
              simp

/-- A syntactically valid placeholder body followed by `\x7d\x7d` is matched
exactly, capturing the body. -/
theorem tryPlaceholder_valid (p : String) (hp₁ : p.data ≠ [])
    (hp₂ : isWordChar (p.data.headD ' ')) (hp₃ : (scanBody p.data).2 = [])
    (rest : List Char) :
    tryPlaceholder ('{' :: '{' :: (p.data ++ '}' :: '}' :: rest)) = some (p, rest) := by
  match p, hp₁ with
  | ⟨c3 :: body⟩, _ =>
    simp only [List.headD_cons] at hp₂
    have hclose := scanBody_close (c3 :: body) ('}' :: rest) hp₃
    simp only [tryPlaceholder, List.cons_append]
    rw [if_pos (⟨trivial, trivial⟩ : True ∧ True), if_pos hp₂]
    simp only [List.cons_append] at hclose
    rw [hclose]
    have h1 := scanBody_append (c3 :: body)
    rw [hp₃, List.append_nil] at h1
    simp [h1]

/-- The scanner behind `replace_all`, on the remaining character list: at
each position, if the placeholder pattern matches, emit the resolved value
(empty on unknown paths) and continue after the match; otherwise emit the
character and move one ahead. The fuel argument (instantiated with the
input length, which every recursive call strictly decreases) makes the
recursion structural. -/
def renderAux (res : String → Option String) : Nat → List Char → List Char
  | 0, cs => cs
  | _ + 1, [] => []
  | fuel + 1, c :: cs =>
    match tryPlaceholder (c :: cs) with
    | some pr => ((res pr.1).getD "").data ++ renderAux res fuel pr.2
    | none => c :: renderAux res fuel cs

/-- Does any placeholder occurrence exist in the input? (The same scan,
observing only whether a match is ever found.) -/
def hasPlaceholder : List Char → Bool
  | [] => false
  | c :: cs => (tryPlaceholder (c :: cs)).isSome || hasPlaceholder cs

theorem renderAux_no_placeholder (res : String → Option String) (fuel : Nat)
    (cs : List Char) (h : hasPlaceholder cs = false) : renderAux res fuel cs = cs := by
  induction fuel generalizing cs with
  | zero => rfl
  | succ fuel ih =>
    match cs with
    | [] => rfl
    | c :: cs =>
      rw [hasPlaceholder, Bool.or_eq_false_iff] at h
      rw [renderAux]
      rcases htry : tryPlaceholder (c :: cs) with _ | pr
      · simp [ih cs h.2]
      · rw [htry] at h
        simp at h

/-! ### The submission context and `resolve` -/

/-- `ActionContext` as consumed by `template::resolve`: the JSON bodies of
the submission plus the string attributes the exhaustive path match reads.
`Uuid::to_string` and `DateTime::to_rfc3339` are external formatting, so the
id and timestamp fields carry the already-rendered strings. -/
structure Ctx where
  data : Json
  extras : Json
  metadata : Json
  endpoint_name : String
  endpoint_slug : String
  endpoint_id : String
  project_name : String
  project_slug : String
  tenant_name : String
  submission_id : String
  submission_created_at : String

/-- One hexadecimal digit, lower case. -/
def hexDigit (n : Nat) : String :=
  String.singleton ("0123456789abcdef".data.getD n '0')

/-- `serde_json`'s string escaping for compact serialization. -/
def escapeChar (c : Char) : String :=
  if c = '"' then "\\\""
  else if c = '\\' then "\\\\"
  else if c = '\x08' then "\\b"
  else if c = '\x0c' then "\\f"
  else if c = '\n' then "\\n"
  else if c = '\r' then "\\r"
  else if c = '\t' then "\\t"
  else if c.toNat < 0x20 then "\\u00" ++ hexDigit (c.toNat / 16) ++ hexDigit (c.toNat % 16)
  else String.singleton c

def escapeString (s : String) : String :=
  String.join (s.data.map escapeChar)

mutual

/-- `serde_json::Value::to_string`: compact JSON text. -/
def Json.toCompactString : Json → String
  | .null => "null"
  | .bool b => if b then "true" else "false"
  | .num n => toString n
  | .str s => "\"" ++ escapeString s ++ "\""
  | .arr xs => "[" ++ Json.arrToString xs ++ "]"
  | .obj fs => "\x7b" ++ Json.objToString fs ++ "\x7d"

def Json.arrToString : List Json → String
  | [] => ""
  | [x] => Json.toCompactString x
  | x :: xs => Json.toCompactString x ++ "," ++ Json.arrToString xs

def Json.objToString : List (String × Json) → String
  | [] => ""
  | [(k, v)] => "\"" ++ escapeString k ++ "\":" ++ Json.toCompactString v
  | (k, v) :: xs =>
    "\"" ++ escapeString k ++ "\":" ++ Json.toCompactString v ++ "," ++ Json.objToString xs

end

/-- `template::json_string_field`: strings verbatim, null suppressed, other
values serialized compactly. -/
def jsonStringField (value : Json) (field : String) : Option String :=
  match value.get field with
  | none => none
  | some (.str s) => some s
  | some .null => none
  | some other => other.toCompactString

/-- `str::splitn(2, '.')` — everything before the first dot, and optionally
everything after it. -/
def splitFirstDot : List Char → List Char × Option (List Char)
  | [] => ([], none)
  | c :: rest =>
    if c = '.' then ([], some rest)
    else ((splitFirstDot rest).1.cons c, (splitFirstDot rest).2)

/-- `template::resolve`: the exhaustive two-segment path match. A path with
no dot produces a one-element slice, which matches none of the two-element
patterns. -/
def resolve (path : String) (ctx : Ctx) : Option String :=
  match splitFirstDot path.data with
  | (_, none) => none
  | (p1, some p2) =>
    match (⟨p1⟩ : String), (⟨p2⟩ : String) with
    | "data", field => jsonStringField ctx.data field
    | "extras", field => jsonStringField ctx.extras field
    | "metadata", field => jsonStringField ctx.metadata field
    | "endpoint", "name" => some ctx.endpoint_name
    | "endpoint", "slug" => some ctx.endpoint_slug
    | "endpoint", "id" => some ctx.endpoint_id
    | "project", "name" => some ctx.project_name
    | "project", "slug" => some ctx.project_slug
    | "tenant", "name" => some ctx.tenant_name
    | "submission", "id" => some ctx.submission_id
    | "submission", "created_at" => some ctx.submission_created_at
    | _, _ => none

/-- `template::render`. -/
def render (template : String) (ctx : Ctx) : String :=
  ⟨renderAux (fun p => resolve p ctx) template.data.length template.data⟩

/-! ## SSRF policy — `src/actions/webhook.rs`

`validate_url` and `is_private_ip`. IPv4 addresses are four octets, IPv6
addresses eight 16-bit segments (each a `Nat`; validity bounds appear as
hypotheses where bit arithmetic needs them). The `std::net` classification
helpers (`is_loopback`, `is_private`, …) are embedded with their documented
ranges, which the source quotes inline; `ipnet::IpNet::contains` is a prefix
match on the address bits; DNS resolution (`to_socket_addrs`) is an explicit
function parameter. -/

structure Ipv4 where
  a : Nat
  b : Nat
  c : Nat
  d : Nat
  deriving Repr, DecidableEq

structure Ipv6 where
  s0 : Nat
  s1 : Nat
  s2 : Nat
  s3 : Nat
  s4 : Nat
  s5 : Nat
  s6 : Nat
  s7 : Nat
  deriving Repr, DecidableEq

inductive IpAddr where
  | v4 (addr : Ipv4)
  | v6 (addr : Ipv6)
  deriving Repr, DecidableEq

def Ipv4.is_loopback (x : Ipv4) : Bool := x.a == 127

def Ipv4.is_private (x : Ipv4) : Bool :=
  x.a == 10 || (x.a == 172 && decide (16 ≤ x.b) && decide (x.b ≤ 31)) ||
    (x.a == 192 && x.b == 168)

def Ipv4.is_link_local (x : Ipv4) : Bool := x.a == 169 && x.b == 254

def Ipv4.is_broadcast (x : Ipv4) : Bool :=
  x.a == 255 && x.b == 255 && x.c == 255 && x.d == 255

def Ipv4.is_unspecified (x : Ipv4) : Bool :=
  x.a == 0 && x.b == 0 && x.c == 0 && x.d == 0

def Ipv6.is_loopback (x : Ipv6) : Bool :=
  x.s0 == 0 && x.s1 == 0 && x.s2 == 0 && x.s3 == 0 && x.s4 == 0 && x.s5 == 0 &&
    x.s6 == 0 && x.s7 == 1

def Ipv6.is_unspecified (x : Ipv6) : Bool :=
  x.s0 == 0 && x.s1 == 0 && x.s2 == 0 && x.s3 == 0 && x.s4 == 0 && x.s5 == 0 &&
    x.s6 == 0 && x.s7 == 0

/-- `Ipv6Addr::to_ipv4_mapped`: `::ffff:a.b.c.d` yields the embedded IPv4. -/
def Ipv6.to_ipv4_mapped (x : Ipv6) : Option Ipv4 :=
  if x.s0 == 0 && x.s1 == 0 && x.s2 == 0 && x.s3 == 0 && x.s4 == 0 && x.s5 == 0xFFFF then
    some ⟨x.s6 >>> 8, x.s6 &&& 0xFF, x.s7 >>> 8, x.s7 &&& 0xFF⟩
  else
    none

/-- The IPv4 arm of `is_private_ip` (also reached for IPv4-mapped IPv6). -/
def is_private_ipv4 (x : Ipv4) : Bool :=
  x.is_loopback || x.is_private || x.is_link_local || x.is_broadcast ||
    x.is_unspecified ||
    (x.a == 100 && (x.b &&& 0xC0) == 64) ||
    (x.a == 198 && (x.b &&& 0xFE) == 18)

/-- The IPv6 arm of `is_private_ip`. -/
def is_private_ipv6 (x : Ipv6) : Bool :=
  x.is_loopback || x.is_unspecified ||
    (x.s0 &&& 0xFE00) == 0xFC00 ||
    (x.s0 &&& 0xFFC0) == 0xFE80 ||
    (match x.to_ipv4_mapped with
     | some v4 => is_private_ipv4 v4
     | none => false)

/-- `webhook::is_private_ip`. -/
def is_private_ip : IpAddr → Bool
  | .v4 v4 => is_private_ipv4 v4
  | .v6 v6 => is_private_ipv6 v6

def Ipv4.toNat (x : Ipv4) : Nat :=
  ((x.a * 256 + x.b) * 256 + x.c) * 256 + x.d

def Ipv6.toNat (x : Ipv6) : Nat :=
  ((((((x.s0 * 65536 + x.s1) * 65536 + x.s2) * 65536 + x.s3) * 65536 + x.s4) * 65536 +
    x.s5) * 65536 + x.s6) * 65536 + x.s7

/-- One `ipnet::IpNet` entry of the allow list. -/
inductive Cidr where
  | v4 (net : Ipv4) (prefix_len : Nat)
  | v6 (net : Ipv6) (prefix_len : Nat)
  deriving Repr, DecidableEq

/-- `IpNet::contains`: same family and equal network prefix. -/
def Cidr.contains : Cidr → IpAddr → Bool
  | .v4 net len, .v4 ip => ip.toNat >>> (32 - len) == net.toNat >>> (32 - len)
  | .v6 net len, .v6 ip => ip.toNat >>> (128 - len) == net.toNat >>> (128 - len)
  | _, _ => false

inductive SsrfMode where
  | strict
  | relaxed
  deriving Repr, DecidableEq

/-- The host part of a parsed URL: either `host.parse::<IpAddr>()` succeeded
(an IP literal) or the host is a name to resolve via DNS. -/
inductive Host where
  | ipLiteral (ip : IpAddr)
  | name (host : String)

/-- The fields of `reqwest::Url` that `validate_url` reads. -/
structure ParsedUrl where
  scheme : String
  host : Option Host

/-- The address list `validate_url` computes: a literal IP verbatim, a name
through the resolver (`none` models a `to_socket_addrs` error). -/
def resolvedAddrs (host : Host) (dns : String → Option (List IpAddr)) :
    Option (List IpAddr) :=
  match host with
  | .ipLiteral ip => some [ip]
  | .name h => dns h

/-- `webhook::validate_url`. The `url` argument is `None` when
`reqwest::Url::parse` fails; `dns` models DNS resolution at check time.
Error strings keep the constant prefix of the source's interpolated
messages. -/
def validate_url (url : Option ParsedUrl) (mode : SsrfMode) (allowed_cidrs : List Cidr)
    (dns : String → Option (List IpAddr)) : Except String Unit :=
  match url with
  | none => .error "Invalid webhook URL"
  | some parsed =>
    if parsed.scheme = "http" ∨ parsed.scheme = "https" then
      if mode = SsrfMode.relaxed then .ok ()
      else
        match parsed.host with
        | none => .error "Webhook URL must have a host"
        | some host =>
          match resolvedAddrs host dns with
          | none => .error "Failed to resolve host"
          | some addrs =>
            if addrs.isEmpty then .error "Could not resolve host"
            else if addrs.any (fun addr =>
                is_private_ip addr &&
                  !(allowed_cidrs.any fun cidr => cidr.contains addr)) then
              .error "Webhook URL resolves to private/reserved IP"
            else .ok ()
    else .error "Unsupported URL scheme"

/-! ### The private/reserved classes as ranges

The spec names the rejected classes by their CIDR blocks; the definitions
below state them as explicit range predicates, and the lemmas connect them
to the source's bit tests. -/

def Ipv4.valid (x : Ipv4) : Prop :=
  x.a < 256 ∧ x.b < 256 ∧ x.c < 256 ∧ x.d < 256

def Ipv6.valid (x : Ipv6) : Prop :=
  x.s0 < 65536 ∧ x.s1 < 65536 ∧ x.s2 < 65536 ∧ x.s3 < 65536 ∧ x.s4 < 65536 ∧
    x.s5 < 65536 ∧ x.s6 < 65536 ∧ x.s7 < 65536

def IpAddr.valid : IpAddr → Prop
  | .v4 x => x.valid
  | .v6 x => x.valid

/-- The claim's IPv4 private/reserved classes: loopback 127/8, RFC1918
(10/8, 172.16/12, 192.168/16), link-local 169.254/16, broadcast,
unspecified, CGNAT 100.64/10, benchmarks 198.18/15. -/
def ipv4PrivateClasses (x : Ipv4) : Prop :=
  x.a = 127 ∨
  x.a = 10 ∨ (x.a = 172 ∧ 16 ≤ x.b ∧ x.b ≤ 31) ∨ (x.a = 192 ∧ x.b = 168) ∨
  (x.a = 169 ∧ x.b = 254) ∨
  (x.a = 255 ∧ x.b = 255 ∧ x.c = 255 ∧ x.d = 255) ∨
  (x.a = 0 ∧ x.b = 0 ∧ x.c = 0 ∧ x.d = 0) ∨
  (x.a = 100 ∧ 64 ≤ x.b ∧ x.b ≤ 127) ∨
  (x.a = 198 ∧ (x.b = 18 ∨ x.b = 19))

/-- The claim's IPv6 private/reserved classes: loopback `::1`, unspecified
`::`, unique-local `fc00::/7`, link-local `fe80::/10`, and IPv4-mapped
addresses whose embedded v4 is itself private. -/
def ipv6PrivateClasses (x : Ipv6) : Prop :=
  (x.s0 = 0 ∧ x.s1 = 0 ∧ x.s2 = 0 ∧ x.s3 = 0 ∧ x.s4 = 0 ∧ x.s5 = 0 ∧
    x.s6 = 0 ∧ x.s7 = 1) ∨
  (x.s0 = 0 ∧ x.s1 = 0 ∧ x.s2 = 0 ∧ x.s3 = 0 ∧ x.s4 = 0 ∧ x.s5 = 0 ∧
    x.s6 = 0 ∧ x.s7 = 0) ∨
  (0xFC00 ≤ x.s0 ∧ x.s0 ≤ 0xFDFF) ∨
  (0xFE80 ≤ x.s0 ∧ x.s0 ≤ 0xFEBF) ∨
  (x.s0 = 0 ∧ x.s1 = 0 ∧ x.s2 = 0 ∧ x.s3 = 0 ∧ x.s4 = 0 ∧ x.s5 = 0xFFFF ∧
    ipv4PrivateClasses ⟨x.s6 / 256, x.s6 % 256, x.s7 / 256, x.s7 % 256⟩)

def privateClasses : IpAddr → Prop
  | .v4 x => ipv4PrivateClasses x
  | .v6 x => ipv6PrivateClasses x

theorem land_high_mask (n k : Nat) (hk : k ≤ n) (x : Nat) (hx : x < 2 ^ n) :
    x &&& (2 ^ n - 2 ^ k) = x / 2 ^ k * 2 ^ k := by
  have hmask : 2 ^ n - 2 ^ k = (2 ^ (n - k) - 1) <<< k := by
    rw [Nat.shiftLeft_eq, Nat.sub_mul, one_mul, ← pow_add]
    congr 2
    omega
  have hdiv : x / 2 ^ k * 2 ^ k = (x >>> k) <<< k := by
    rw [Nat.shiftRight_eq_div_pow, Nat.shiftLeft_eq]
  rw [hmask, hdiv]
  apply Nat.eq_of_testBit_eq
  intro i
  rw [Nat.testBit_land, Nat.testBit_shiftLeft, Nat.testBit_shiftLeft,
      Nat.testBit_two_pow_sub_one, Nat.testBit_shiftRight]
  by_cases hik : k ≤ i
  · rw [Nat.add_sub_cancel' hik]
    by_cases hin : i < n
    · have hkn : i - k < n - k := by omega
      simp [hik, hkn, hin, ge_iff_le]
    · have hfalse : x.testBit i = false :=
        Nat.testBit_eq_false_of_lt
          (lt_of_lt_of_le hx (Nat.pow_le_pow_right (by norm_num) (le_of_not_lt hin)))
      simp [hfalse]
  · simp [hik, ge_iff_le]

theorem land_low_mask (k x : Nat) : x &&& (2 ^ k - 1) = x % 2 ^ k := by
  apply Nat.eq_of_testBit_eq
  intro i
  rw [Nat.testBit_land, Nat.testBit_two_pow_sub_one, Nat.testBit_mod_two_pow]
  by_cases hik : i < k <;> simp [hik]

/-- The source's IPv4 bit tests decide exactly the claim's class list. -/
theorem is_private_ipv4_iff (x : Ipv4) (hx : x.valid) :
    is_private_ipv4 x = true ↔ ipv4PrivateClasses x := by
  obtain ⟨-, hb, -, -⟩ := hx
  have hCG : ((x.b &&& 0xC0) = 64) ↔ (64 ≤ x.b ∧ x.b ≤ 127) := by
    rw [show (0xC0 : Nat) = 2 ^ 8 - 2 ^ 6 by norm_num,
        land_high_mask 8 6 (by norm_num) x.b hb,
        show (2 : Nat) ^ 6 = 64 by norm_num]
    omega
  have hBM : ((x.b &&& 0xFE) = 18) ↔ (x.b = 18 ∨ x.b = 19) := by
    rw [show (0xFE : Nat) = 2 ^ 8 - 2 ^ 1 by norm_num,
        land_high_mask 8 1 (by norm_num) x.b hb,
        show (2 : Nat) ^ 1 = 2 by norm_num]
    omega
  simp only [is_private_ipv4, Ipv4.is_loopback, Ipv4.is_private, Ipv4.is_link_local,
    Ipv4.is_broadcast, Ipv4.is_unspecified, ipv4PrivateClasses, Bool.or_eq_true,
    Bool.and_eq_true, beq_iff_eq, decide_eq_true_eq, hCG, hBM, or_assoc, and_assoc]

/-- The IPv6 bit tests decide exactly the claim's class list. -/
theorem is_private_ipv6_iff (x : Ipv6) (hx : x.valid) :
    is_private_ipv6 x = true ↔ ipv6PrivateClasses x := by
  obtain ⟨h0, h1, h2, h3, h4, h5, h6, h7⟩ := hx
  have hemb := is_private_ipv4_iff ⟨x.s6 / 256, x.s6 % 256, x.s7 / 256, x.s7 % 256⟩
    ⟨by dsimp only; omega, by dsimp only; omega, by dsimp only; omega,
     by dsimp only; omega⟩
  have hmapped : x.to_ipv4_mapped =
      (if (x.s0 == 0 && x.s1 == 0 && x.s2 == 0 && x.s3 == 0 && x.s4 == 0 &&
          x.s5 == 0xFFFF) = true then
        some ⟨x.s6 / 256, x.s6 % 256, x.s7 / 256, x.s7 % 256⟩
      else none) := by
    rw [Ipv6.to_ipv4_mapped,
      show x.s6 >>> 8 = x.s6 / 256 by rw [Nat.shiftRight_eq_div_pow],
      show x.s7 >>> 8 = x.s7 / 256 by rw [Nat.shiftRight_eq_div_pow],
      show x.s6 &&& 0xFF = x.s6 % 256 by
        rw [show (0xFF : Nat) = 2 ^ 8 - 1 by norm_num, land_low_mask]; norm_num,
      show x.s7 &&& 0xFF = x.s7 % 256 by
        rw [show (0xFF : Nat) = 2 ^ 8 - 1 by norm_num, land_low_mask]; norm_num]
  have hula : ((x.s0 &&& 0xFE00) = 0xFC00) ↔ (0xFC00 ≤ x.s0 ∧ x.s0 ≤ 0xFDFF) := by
    rw [show (0xFE00 : Nat) = 2 ^ 16 - 2 ^ 9 by norm_num,
        land_high_mask 16 9 (by norm_num) x.s0 h0,
        show (2 : Nat) ^ 9 = 512 by norm_num]
    omega
  have hll : ((x.s0 &&& 0xFFC0) = 0xFE80) ↔ (0xFE80 ≤ x.s0 ∧ x.s0 ≤ 0xFEBF) := by
    rw [show (0xFFC0 : Nat) = 2 ^ 16 - 2 ^ 6 by norm_num,
        land_high_mask 16 6 (by norm_num) x.s0 h0,
        show (2 : Nat) ^ 6 = 64 by norm_num]
    omega
  rw [is_private_ipv6, hmapped]
  by_cases hcond : (x.s0 == 0 && x.s1 == 0 && x.s2 == 0 && x.s3 == 0 && x.s4 == 0 &&
      x.s5 == 0xFFFF) = true
  · rw [if_pos hcond]
    simp only [Bool.and_eq_true, beq_iff_eq] at hcond
    obtain ⟨⟨⟨⟨⟨hs0, hs1⟩, hs2⟩, hs3⟩, hs4⟩, hs5⟩ := hcond
    simp [Ipv6.is_loopback, Ipv6.is_unspecified, ipv6PrivateClasses,
      hemb, hula, hll, hs0, hs1, hs2, hs3, hs4, hs5, or_assoc, and_assoc]
  · rw [if_neg hcond]
    have hnm : ¬ (x.s0 = 0 ∧ x.s1 = 0 ∧ x.s2 = 0 ∧ x.s3 = 0 ∧ x.s4 = 0 ∧
        x.s5 = 65535 ∧ ipv4PrivateClasses ⟨x.s6 / 256, x.s6 % 256, x.s7 / 256,
          x.s7 % 256⟩) := by
      rintro ⟨c0, c1, c2, c3, c4, c5, -⟩
      exact hcond (by simp [c0, c1, c2, c3, c4, c5])
    simp only [Ipv6.is_loopback, Ipv6.is_unspecified, ipv6PrivateClasses,
      Bool.or_eq_true, Bool.and_eq_true, beq_iff_eq, hula, hll, or_assoc, and_assoc]
    simp [hnm, hula, hll, and_assoc]

/-- The source's `is_private_ip` decides exactly the claim's class list, on
well-formed addresses. -/
theorem is_private_ip_iff (ip : IpAddr) (hip : ip.valid) :
    is_private_ip ip = true ↔ privateClasses ip := by
  match ip with
  | .v4 x => exact is_private_ipv4_iff x hip
  | .v6 x => exact is_private_ipv6_iff x hip

/-! ## Crypto helper — `src/crypto.rs`

`encrypt` / `decrypt` wrap AES-256-GCM from the `aes_gcm` crate. The
external primitives — the AEAD cipher, HKDF key derivation, the OS nonce
source and UTF-8 coding — enter as explicit function parameters; the
repository's own logic is the wire format `nonce(12) || ciphertext||tag`
and the minimum-length check. Byte strings are `List Nat`. -/

/-- `crypto::encrypt`: derive the key, draw a fresh 12-byte nonce (passed in,
as the CSPRNG is external), encrypt, and prepend the nonce. -/
def crypto_encrypt (aeadEncrypt : List Nat → List Nat → List Nat → List Nat)
    (derive_key : String → List Nat) (utf8Encode : String → List Nat)
    (nonce : List Nat) (plaintext key : String) : List Nat :=
  nonce ++ aeadEncrypt (derive_key key) nonce (utf8Encode plaintext)

/-- `crypto::decrypt`: reject inputs shorter than 12 bytes, split off the
nonce, decrypt (the AEAD returns `none` on an authentication failure), and
decode UTF-8. -/
def crypto_decrypt (aeadDecrypt : List Nat → List Nat → List Nat → Option (List Nat))
    (derive_key : String → List Nat) (utf8Decode : List Nat → Option String)
    (data : List Nat) (key : String) : Except String String :=
  if data.length < 12 then .error "Ciphertext too short"
  else
    match aeadDecrypt (derive_key key) (data.take 12) (data.drop 12) with
    | none => .error "Decryption failed"
    | some pt =>
      match utf8Decode pt with
      | none => .error "Invalid UTF-8"
      | some s => .ok s

/-! ## Ingestion pipeline — `src/submission/pipeline.rs`

`pipeline::run`, with its external collaborators as parameters and its
database writes and module executions recorded as an effect trace. The
effect vocabulary covers the `db` layer calls available to the pipeline —
including `db::action_queue::enqueue`, which the pipeline never issues. -/

/-- One row of `db::actions::list_enabled_ordered` (the fields the dispatch
loop reads). -/
structure ActionM where
  action_type : String

/-- Outcome of `tokio::time::timeout(30s, module.execute(..))` for one
action. -/
inductive ExecOutcome where
  | success (response : Option Json)
  | failed (response : Option Json)
  | errMsg (message : String)
  | timeout

/-- The status string the pipeline logs for an execution outcome. -/
def statusOf : ExecOutcome → String
  | .success _ => "success"
  | .failed _ => "failed"
  | .errMsg _ => "failed"
  | .timeout => "failed"

/-- The response value the pipeline logs for an execution outcome. -/
def responseOf : ExecOutcome → Option Json
  | .success r => r
  | .failed r => r
  | .errMsg m => some (.obj [("error", .str m)])
  | .timeout => some (.obj [("error", .str "Action timed out after 30s")])

/-- Database writes and side effects the pipeline can issue, in order. -/
inductive Effect where
  | insertSubmission (data extras raw metadata : Json)
  | enqueueItem (actionIndex : Nat)
  | executeModule (action_type : String) (actionIndex : Nat)
  | insertActionLog (actionIndex : Nat) (status : String) (response : Option Json)

def Effect.isEnqueue : Effect → Bool
  | .enqueueItem _ => true
  | _ => false

/-- The endpoint columns the pipeline reads. -/
structure EndpointM where
  fields : Option Json
  settings : Option Json

/-- The pipeline's collaborators: the rate-limiter entry for the request's
`(endpoint_id, peer_ip)` key (`none` for a fresh key) and the clock; the
endpoint's enabled actions in `position` order; whether the project and
tenant rows both loaded; the module registry; per-action execution
outcomes; the extracted request metadata; whether the submission `INSERT`
succeeds and the id it returns. -/
structure PipelineEnv where
  limiterEntry : Option RLState
  now : Nat
  actions : List ActionM
  haveProjectTenant : Bool
  moduleKnown : String → Bool
  execOutcome : Nat → ExecOutcome
  metadata : Json
  insertOk : Bool
  submissionId : String

/-- `pipeline::PipelineResult`. -/
structure PipelineResultM where
  submission_id : Option String
  redirect_url : Option String
  spam : Bool

/-- Steps 9–10 of the pipeline: for each enabled action in order, execute
its module inline when the registry knows the type (logging the outcome),
else log a `skipped` row. -/
def actionChainEffects (env : PipelineEnv) : Nat → List ActionM → List Effect
  | _, [] => []
  | i, action :: rest =>
    (if env.moduleKnown action.action_type then
      [Effect.executeModule action.action_type i,
       Effect.insertActionLog i (statusOf (env.execOutcome i))
         (responseOf (env.execOutcome i))]
    else
      [Effect.insertActionLog i "skipped"
        (some (.obj [("error", .str ("Unknown module: " ++ action.action_type))]))]) ++
    actionChainEffects env (i + 1) rest

/-- `pipeline::run`: rate check from the endpoint settings, honeypot check,
field sort, metadata, submission insert, then the inline action loop.
Validation warnings (step 6) are only logged at debug level and do not
affect behaviour. -/
def pipeline_run (env : PipelineEnv) (endpoint : EndpointM) (raw_data : Json) :
    Except String PipelineResultM × List Effect :=
  let settings := endpoint.settings.getD (.obj [])
  let rate_limit := ((settings.index "rate_limit").asU64.getD 10) % 2 ^ 32
  let rate_window := (settings.index "rate_limit_window_secs").asU64.getD 60
  let entry := env.limiterEntry.getD (freshEntry env.now)
  match (check entry env.now rate_limit rate_window).2 with
  | .denied retry_after =>
    (.error ("Rate limited. Retry after " ++ toString retry_after ++ "s"), [])
  | .admitted =>
    let honeypot_field := (settings.index "honeypot_field").asStr
    if is_spam raw_data honeypot_field then
      (.ok ⟨none, (settings.index "redirect_url").asStr, true⟩, [])
    else
      let raw := raw_data
      let sorted := sort_fields raw_data endpoint.fields
      if env.insertOk then
        let actionEffects :=
          if env.actions.isEmpty then []
          else if env.haveProjectTenant then actionChainEffects env 0 env.actions
          else []
        (.ok ⟨some env.submissionId, (settings.index "redirect_url").asStr, false⟩,
          Effect.insertSubmission sorted.1 sorted.2 raw env.metadata :: actionEffects)
      else
        (.error "Failed to store submission", [])

/-! ## Claim theorems -/

/-- The claim's fixed-window algorithm in its own words: on check, if
`now − window_start > window`, reset to `(1, now)` and admit; else if
`count ≥ limit`, deny and return `window − elapsed` as seconds-until-retry;
else increment and admit. -/
def checkSpec (s : RLState) (now limit window : Nat) : RLState × CheckResult :=
  if now - s.start > window then
    (⟨1, now⟩, .admitted)
  else if s.count ≥ limit then
    (s, .denied (window - (now - s.start)))
  else
    ({ s with count := s.count + 1 }, .admitted)

theorem check_reset {s : RLState} {now limit window : Nat} (h : window < now - s.start) :
    check s now limit window = (⟨1, now⟩, .admitted) := by
  rw [check, if_pos h]

theorem check_deny {s : RLState} {now limit window : Nat} (h1 : ¬ window < now - s.start)
    (h2 : limit ≤ s.count) :
    check s now limit window = (s, .denied (window - (now - s.start))) := by
  rw [check, if_neg h1, if_pos h2]

theorem check_incr {s : RLState} {now limit window : Nat} (h1 : ¬ window < now - s.start)
    (h2 : ¬ limit ≤ s.count) :
    check s now limit window = ({ s with count := s.count + 1 }, .admitted) := by
  rw [check, if_neg h1, if_neg h2]

theorem admitsWithStart_lt_start (limit window : Nat) (times : List Nat) :
    ∀ (s : RLState) (ws : Nat), ws < s.start →
      admitsWithStart s limit window times ws = 0 := by
  induction times with
  | nil => intro s ws _; rfl
  | cons now rest ih =>
    intro s ws hws
    rw [admitsWithStart]
    by_cases h1 : window < now - s.start
    · have hnow : s.start < now := by omega
      rw [check_reset h1]
      simp only []
      rw [if_neg (by simp; omega), ih ⟨1, now⟩ ws (by simp; omega)]
    · by_cases h2 : limit ≤ s.count
      · rw [check_deny h1 h2]
        simp only []
        rw [if_neg (by simp), ih s ws hws]
      · rw [check_incr h1 h2]
        simp only []
        rw [if_neg (by simp; omega), ih { s with count := s.count + 1 } ws (by simpa using hws)]

theorem admitsWithStart_le (limit window : Nat) (hlim : 1 ≤ limit) (times : List Nat) :
    ∀ (s : RLState) (ws : Nat),
      admitsWithStart s limit window times ws ≤
        if ws = s.start then limit - s.count else limit := by
  induction times with
  | nil =>
    intro s ws
    rw [admitsWithStart]
    split <;> omega
  | cons now rest ih =>
    intro s ws
    rw [admitsWithStart]
    by_cases h1 : window < now - s.start
    · have hnow : s.start < now := by omega
      rw [check_reset h1]
      simp only []
      by_cases hws : ws = now
      · rw [if_pos (by simp [hws])]
        have hrec := ih ⟨1, now⟩ ws
        rw [if_pos hws] at hrec
        simp only [] at hrec
        split <;> omega
      · rw [if_neg (by simp; omega)]
        by_cases hold : ws = s.start
        · rw [admitsWithStart_lt_start limit window rest ⟨1, now⟩ ws (by simp; omega)]
          split <;> omega
        · have hrec := ih ⟨1, now⟩ ws
          rw [if_neg (by simpa using hws)] at hrec
          rw [if_neg hold]
          omega
    · by_cases h2 : limit ≤ s.count
      · rw [check_deny h1 h2]
        simp only []
        rw [if_neg (by simp)]
        have hrec := ih s ws
        omega
      · rw [check_incr h1 h2]
        simp only []
        have hrec := ih { s with count := s.count + 1 } ws
        simp only [] at hrec
        by_cases hws : ws = s.start
        · rw [if_pos (by simp [hws]), if_pos hws]
          rw [if_pos hws] at hrec
          omega
        · rw [if_neg (by simp; omega), if_neg hws]
          rw [if_neg hws] at hrec
          omega

/-- C4: the submission limiter's `check` is exactly the fixed-window
algorithm of the claim (reset to `(1, now)` and admit after the window;
deny with `window − elapsed` at the limit; otherwise increment and admit);
and — as amended — for `limit ≥ 1` at most `limit` checks are admitted per
window per key (admissions counted against the window start they land in,
over any trace starting from a fresh entry). -/
theorem C4_rate_limiter_fixed_window :
    (∀ (s : RLState) (now limit window : Nat),
      check s now limit window = checkSpec s now limit window) ∧
    (∀ (limit window t0 : Nat) (times : List Nat) (ws : Nat), 1 ≤ limit →
      admitsWithStart (freshEntry t0) limit window times ws ≤ limit) := by
  constructor
  · intro s now limit window
    rfl
  · intro limit window t0 times ws hlim
    have h := admitsWithStart_le limit window hlim times (freshEntry t0) ws
    revert h
    rw [freshEntry]
    split <;> omega

/-- C4 witness: a concrete trace at `limit = 10` stays within the bound. -/
theorem C4_rate_limiter_witness :
    admitsWithStart (freshEntry 0) 10 60 [0, 0, 0] 0 ≤ 10 :=
  C4_rate_limiter_fixed_window.2 10 60 0 [0, 0, 0] 0 (by decide)

/-- C4 counterexample: with `limit = 0`, a check that resets an expired
window is still admitted, so the unamended claim's bound "at most `limit`
admissions per window" fails at `limit = 0` (entry `(0, 0)`, one check at
`t = 61` with `window = 60`: the check is admitted into the window starting
at 61, exceeding the limit 0). -/
theorem C4_rate_limiter_zero_limit_counterexample :
    check ⟨0, 0⟩ 61 0 60 = (⟨1, 61⟩, .admitted) ∧
    ¬ (admitsWithStart ⟨0, 0⟩ 0 60 [61] 61 ≤ 0) := by decide

/-- C10: with a honeypot field configured under a non-empty name, `is_spam`
flags a string value exactly when it is non-empty, never flags `null` or an
absent key, and flags every non-string non-null value — including `false`,
`0`, the empty array and the empty object. -/
theorem C10_honeypot_value_semantics (f : String) (hf : f ≠ "") (data : Json) :
    (∀ v, data.get f = some v →
      is_spam data (some f) =
        (match v with
         | .str s => !s.isEmpty
         | .null => false
         | _ => true)) ∧
    (data.get f = none → is_spam data (some f) = false) ∧
    is_spam (.obj [(f, .bool false)]) (some f) = true ∧
    is_spam (.obj [(f, .num 0)]) (some f) = true ∧
    is_spam (.obj [(f, .arr [])]) (some f) = true ∧
    is_spam (.obj [(f, .obj [])]) (some f) = true ∧
    is_spam (.obj [(f, .str "")]) (some f) = false ∧
    is_spam (.obj [(f, .null)]) (some f) = false := by
  have hfe : f.isEmpty = false := by
    rw [← Bool.not_eq_true, String.isEmpty_iff]
    exact hf
  have hget : ∀ v : Json, (Json.obj [(f, v)]).get f = some v := by
    intro v
    simp [Json.get, List.lookup]
  refine ⟨?_, ?_, ?_, ?_, ?_, ?_, ?_, ?_⟩
  · intro v hv
    rcases v <;> simp [is_spam, hfe, hv]
  · intro hv
    simp [is_spam, hfe, hv]
  all_goals simp [is_spam, hfe, hget] <;> rfl

/-- C10 witness: concrete spam decisions at the field name `website`. -/
theorem C10_honeypot_witness :
    is_spam (.obj [("website", .str "x")]) (some "website") = true ∧
    is_spam (.obj [("website", .bool false)]) (some "website") = true ∧
    is_spam (.obj [("website", .null)]) (some "website") = false := by
  have h := C10_honeypot_value_semantics "website" (by decide)
    (Json.obj [("website", Json.str "x")])
  exact ⟨(h.1 (.str "x") (by rfl)).trans (by rfl), h.2.2.1, h.2.2.2.2.2.2.2⟩

/-- C6: for an object payload and a non-null fields list, `sort_fields`
partitions the top-level keys — `data`'s keys all lie in the defined field
names, `extras`'s keys all lie outside them, the two key sets are disjoint,
and their union is exactly the payload's key set; with a null fields list,
`data` is the whole payload and `extras` is empty. -/
theorem C6_sort_fields_partition (entries : List (String × Json)) (defs : Json) :
    ((sort_fields (.obj entries) (some defs)).1.keys.all
      (fun k => (definedNames defs).contains k) = true) ∧
    ((sort_fields (.obj entries) (some defs)).2.keys.all
      (fun k => !(definedNames defs).contains k) = true) ∧
    ((sort_fields (.obj entries) (some defs)).1.keys.all
      (fun k => !(sort_fields (.obj entries) (some defs)).2.keys.contains k) = true) ∧
    (∀ k, k ∈ (sort_fields (.obj entries) (some defs)).1.keys ∨
        k ∈ (sort_fields (.obj entries) (some defs)).2.keys ↔
      k ∈ (Json.obj entries).keys) ∧
    (∀ raw, sort_fields raw none = (raw, .obj [])) := by
  have hsplit : sort_fields (.obj entries) (some defs) =
      (.obj (entries.filter fun kv => (definedNames defs).contains kv.1),
       .obj (entries.filter fun kv => !(definedNames defs).contains kv.1)) := by
    rw [sort_fields]
    rw [List.partition_eq_filter_filter]
    rfl
  refine ⟨?_, ?_, ?_, ?_, ?_⟩
  · rw [hsplit]
    simp only [Json.keys, List.all_eq_true, List.mem_map, List.mem_filter]
    rintro k ⟨kv, ⟨-, hkv⟩, rfl⟩
    exact hkv
  · rw [hsplit]
    simp only [Json.keys, List.all_eq_true, List.mem_map, List.mem_filter]
    rintro k ⟨kv, ⟨-, hkv⟩, rfl⟩
    exact hkv
  · rw [hsplit]
    simp only [Json.keys, List.all_eq_true, List.mem_map, List.mem_filter]
    rintro k ⟨kv, ⟨-, hkv⟩, rfl⟩
    have : kv.1 ∉ (List.filter (fun kv => !(definedNames defs).contains kv.1)
        entries).map Prod.fst := by
      rintro hmem
      rw [List.mem_map] at hmem
      obtain ⟨kv', hkv', hk⟩ := hmem
      rw [List.mem_filter] at hkv'
      rw [hk, hkv] at hkv'
      simp at hkv'
    simpa using this
  · intro k
    rw [hsplit]
    simp only [Json.keys, List.mem_map, List.mem_filter]
    constructor
    · rintro (⟨kv, ⟨hmem, -⟩, rfl⟩ | ⟨kv, ⟨hmem, -⟩, rfl⟩) <;> exact ⟨kv, hmem, rfl⟩
    · rintro ⟨kv, hmem, rfl⟩
      by_cases hp : (definedNames defs).contains kv.1
      · exact Or.inl ⟨kv, ⟨hmem, hp⟩, rfl⟩
      · exact Or.inr ⟨kv, ⟨hmem, by simpa using hp⟩, rfl⟩
  · intro raw
    rcases raw <;> rfl

/-- C2: the claim says a terminally failed item (`status = failed` with
`attempts ≥ max_attempts`) is never returned by a later `claim_next`. The
code violates this: the terminal branch of `mark_failed` leaves
`next_retry_at` unchanged (necessarily in the past, since the item was
claimable), and `claim_next`'s predicate is only
`status IN ('pending','failed') AND next_retry_at <= now`, so the terminal
row is reclaimed and `attempts` climbs past `max_attempts`. Trace: an item
enqueued at `t = 0` with `max_attempts = 3` whose execution always fails is
claimed at `t = 0, 2, 6`, becomes terminal with `attempts = 3`, and is
claimed AGAIN at `t = 7` with `attempts = 4`. -/
theorem C2_terminal_failed_item_reclaimed :
    (workerFailStep (workerFailStep (workerFailStep [mkPending 1 0 3] 0 "e") 2 "e") 6 "e"
      = [⟨1, 3, 3, .failed, some "e", 6, some 6⟩]) ∧
    ((claim_next [⟨1, 3, 3, .failed, some "e", 6, some 6⟩] 7).1 =
      some ⟨1, 4, 3, .processing, some "e", 6, some 6⟩) := by
  decide

/-- C3 counterexample: the retry delay scheduled after the FIRST failed
attempt is 2 seconds, not 1 second — `claim_next` increments `attempts` to 1
before execution and `mark_failed` then adds `2 ^ 1 = 2` seconds. A fresh
item (enqueued at `t = 0`, `max_attempts = 3`) that fails its first attempt
at `t = 0` gets `next_retry_at = 2`, and not `1` as the claim's sequence
`1s, 2s, 4s, …` requires. -/
theorem C3_first_retry_delay_counterexample :
    (workerFailStep [mkPending 1 0 3] 0 "e" = [⟨1, 1, 3, .failed, some "e", 2, none⟩]) ∧
    ¬ (workerFailStep [mkPending 1 0 3] 0 "e" = [⟨1, 1, 3, .failed, some "e", 1, none⟩]) := by
  decide

/-- C3 (amended): for a failure with `attempts < max_attempts`, `mark_failed`
sets `next_retry_at = now + 2^attempts`; since `claim_next` increments the
counter before execution, one worker pass over a claimable item whose
execution fails reschedules it `2 ^ (attempts + 1)` seconds later — the
delay sequence is `2s, 4s, 8s, …`, and after the first failed attempt of a
fresh item the delay is 2 seconds. -/
theorem C3_backoff_schedule (it : QueueItem) (now : Nat) (err : String)
    (hclaim : claimable it now = true) (hmax : it.attempts + 1 < it.max_attempts) :
    workerFailStep [it] now err =
      [{ it with status := QStatus.failed, attempts := it.attempts + 1,
                 last_error := some err,
                 next_retry_at := now + 2 ^ (it.attempts + 1) }] ∧
    (it.attempts = 0 →
      workerFailStep [it] now err =
        [{ it with status := QStatus.failed, attempts := 1, last_error := some err,
                   next_retry_at := now + 2 }]) := by
  have hsel : selectNext [it] now = some it := by
    rw [selectNext]
    simp [List.filter, hclaim]
  have hmain : workerFailStep [it] now err =
      [{ it with status := QStatus.failed, attempts := it.attempts + 1,
                 last_error := some err,
                 next_retry_at := now + 2 ^ (it.attempts + 1) }] := by
    rw [workerFailStep, claim_next, hsel]
    simp only [List.map_cons, List.map_nil, if_pos rfl]
    rw [mark_failed, if_neg (by omega)]
    simp
  refine ⟨hmain, fun h0 => ?_⟩
  rw [hmain, h0]
  norm_num

/-- C3 witness: a fresh claimable item failing its first attempt at `t = 10`
is rescheduled for `t = 12`. -/
theorem C3_backoff_schedule_witness :
    workerFailStep [⟨5, 0, 3, .pending, none, 10, none⟩] 10 "x" =
      [⟨5, 1, 3, .failed, some "x", 12, none⟩] := by
  have h := (C3_backoff_schedule ⟨5, 0, 3, .pending, none, 10, none⟩ 10 "x"
    (by decide) (by decide)).1
  exact h.trans (by decide)

/-- C7: a submission flagged by the honeypot check (the settings name a
honeypot field and the payload holds a non-empty value there) causes no
persistence at all — the pipeline returns before any database write or
module execution, with a success result marked spam carrying the
configured redirect URL. The rate-check hypothesis places the request on
the path that reaches the honeypot step. -/
theorem C7_spam_submission_never_persisted (env : PipelineEnv) (endpoint : EndpointM)
    (raw : Json)
    (hpass : (check (env.limiterEntry.getD (freshEntry env.now)) env.now
        ((((endpoint.settings.getD (.obj [])).index "rate_limit").asU64.getD 10) % 2 ^ 32)
        (((endpoint.settings.getD (.obj [])).index "rate_limit_window_secs").asU64.getD
          60)).2 = .admitted)
    (hspam : is_spam raw
        ((endpoint.settings.getD (.obj [])).index "honeypot_field").asStr = true) :
    pipeline_run env endpoint raw =
      (.ok ⟨none, ((endpoint.settings.getD (.obj [])).index "redirect_url").asStr, true⟩,
        []) := by
  rw [pipeline_run]
  simp only []
  rw [hpass]
  simp only [hspam]
  rw [if_pos trivial]

/-- A concrete pipeline environment: fresh limiter entry, one enabled
`webhook` action, project and tenant present, execution failing with a
transport error. -/
def envC1 : PipelineEnv :=
  ⟨none, 0, [⟨"webhook"⟩], true, fun t => t == "webhook",
   fun _ => .errMsg "Webhook request failed", .null, true, "sid"⟩

/-- C1: the claim says the pipeline, after persisting the Submission,
inserts one pending ActionQueueItem per enabled action and dispatches the
actions asynchronously through the queue. The code does neither: on a
concrete non-spam submission to an endpoint with one enabled webhook
action, the pipeline's effect trace is the submission insert, an INLINE
module execution during the ingest request, and an action-log insert — and
(second conjunct) no run of the pipeline on any input ever issues an
`enqueueItem` effect (`db::action_queue::enqueue` is dead code; the worker
pool polls a queue nothing fills). -/
theorem C1_pipeline_executes_inline_never_enqueues :
    (pipeline_run envC1 ⟨none, none⟩ (.obj [("name", .str "Alice")]) =
      (.ok ⟨some "sid", none, false⟩,
       [.insertSubmission (.obj [("name", .str "Alice")]) (.obj [])
          (.obj [("name", .str "Alice")]) .null,
        .executeModule "webhook" 0,
        .insertActionLog 0 "failed"
          (some (.obj [("error", .str "Webhook request failed")]))])) ∧
    (∀ (env : PipelineEnv) (endpoint : EndpointM) (raw : Json),
      ((pipeline_run env endpoint raw).2.all fun e => !e.isEnqueue) = true) := by
  constructor
  · rfl
  · intro env endpoint raw
    have hchain : ∀ (i : Nat) (actions : List ActionM),
        ((actionChainEffects env i actions).all fun e => !e.isEnqueue) = true := by
      intro i actions
      induction actions generalizing i with
      | nil => rfl
      | cons a rest ih =>
        rw [actionChainEffects, List.all_append, ih]
        rcases hm : env.moduleKnown a.action_type <;> simp [hm, Effect.isEnqueue]
    rw [pipeline_run]
    simp only []
    rcases (check (env.limiterEntry.getD (freshEntry env.now)) env.now _ _).2 with _ | r
    · rcases hspam : is_spam raw
          ((endpoint.settings.getD (.obj [])).index "honeypot_field").asStr
      · simp only [hspam, Bool.false_eq_true, if_false]
        rcases hins : env.insertOk
        · simp [hins]
        · simp only [hins, if_true, List.all_cons]
          have hhead : ∀ d e r m, (!(Effect.insertSubmission d e r m).isEnqueue) = true :=
            fun _ _ _ _ => rfl
          rw [hhead, Bool.true_and]
          split
          · rfl
          · split
            · exact hchain 0 env.actions
            · rfl
      · simp [hspam]
    · rfl

def envC7 : PipelineEnv :=
  ⟨none, 0, [], false, fun _ => false, fun _ => .timeout, .null, true, "s"⟩

def epC7 : EndpointM :=
  ⟨none, some (.obj [("honeypot_field", .str "website")])⟩

/-- C7 witness: a concrete honeypot-flagged submission produces the spam
result and an empty effect trace. -/
theorem C7_spam_submission_witness :
    pipeline_run envC7 epC7 (.obj [("website", .str "x")]) =
      (.ok ⟨none, none, true⟩, []) :=
  C7_spam_submission_never_persisted envC7 epC7 (.obj [("website", .str "x")])
    (by decide) (by decide)

/-- C5: `validate_url` rejects every non-http(s) scheme in both modes;
accepts every http/https URL in relaxed mode; and in strict mode, when the
host yields a list of addresses, errors whenever some address is in the
private/reserved classes (IPv4 loopback, RFC1918, link-local, broadcast,
unspecified, CGNAT 100.64/10, benchmarks 198.18/15; IPv6 loopback,
unspecified, unique-local, link-local, IPv4-mapped-with-private-v4) and is
not covered by any allow-list CIDR, and accepts when every resolved address
is public. -/
theorem C5_validate_url_ssrf :
    (∀ (u : ParsedUrl) (mode : SsrfMode) (allowed : List Cidr)
        (dns : String → Option (List IpAddr)),
      u.scheme ≠ "http" → u.scheme ≠ "https" →
      validate_url (some u) mode allowed dns = .error "Unsupported URL scheme") ∧
    (∀ (u : ParsedUrl) (allowed : List Cidr) (dns : String → Option (List IpAddr)),
      (u.scheme = "http" ∨ u.scheme = "https") →
      validate_url (some u) .relaxed allowed dns = .ok ()) ∧
    (∀ (scheme : String) (host : Host) (allowed : List Cidr)
        (dns : String → Option (List IpAddr)) (addrs : List IpAddr),
      (scheme = "http" ∨ scheme = "https") →
      resolvedAddrs host dns = some addrs →
      (∀ a ∈ addrs, a.valid) →
      (∃ a ∈ addrs, privateClasses a ∧ ∀ c ∈ allowed, c.contains a = false) →
      validate_url (some ⟨scheme, some host⟩) .strict allowed dns =
        .error "Webhook URL resolves to private/reserved IP") ∧
    (∀ (scheme : String) (host : Host) (allowed : List Cidr)
        (dns : String → Option (List IpAddr)) (addrs : List IpAddr),
      (scheme = "http" ∨ scheme = "https") →
      resolvedAddrs host dns = some addrs → addrs ≠ [] →
      (∀ a ∈ addrs, a.valid) →
      (∀ a ∈ addrs, ¬ privateClasses a) →
      validate_url (some ⟨scheme, some host⟩) .strict allowed dns = .ok ()) := by
  refine ⟨?_, ?_, ?_, ?_⟩
  · intro u mode allowed dns h1 h2
    rw [validate_url]
    rw [if_neg (by rintro (h | h) <;> contradiction)]
  · intro u allowed dns hs
    rw [validate_url, if_pos hs, if_pos rfl]
  · intro scheme host allowed dns addrs hs hres hvalid hex
    obtain ⟨a, ha, hpriv, hallow⟩ := hex
    rw [validate_url, if_pos hs, if_neg (by simp)]
    simp only []
    rw [hres]
    simp only []
    rw [if_neg (by rcases addrs with _ | _ <;> simp_all)]
    rw [if_pos ?hany]
    case hany =>
      rw [List.any_eq_true]
      refine ⟨a, ha, ?_⟩
      rw [Bool.and_eq_true]
      constructor
      · exact (is_private_ip_iff a (hvalid a ha)).mpr hpriv
      · rw [Bool.not_eq_true', List.any_eq_false]
        intro c hc
        simp [hallow c hc]
  · intro scheme host allowed dns addrs hs hres hne hvalid hpub
    rw [validate_url, if_pos hs, if_neg (by simp)]
    simp only []
    rw [hres]
    simp only []
    rw [if_neg (by simpa using hne)]
    rw [if_neg ?hnone]
    case hnone =>
      rw [Bool.not_eq_true, List.any_eq_false]
      intro a ha
      rw [Bool.and_eq_true]
      rintro ⟨hp, -⟩
      exact hpub a ha ((is_private_ip_iff a (hvalid a ha)).mp hp)

/-- C5 witness: concrete checks — `ftp` rejected; relaxed accepts; strict
rejects a loopback literal with an empty allow list; strict accepts a
public literal. -/
theorem C5_validate_url_witness :
    validate_url (some ⟨"ftp", none⟩) .strict [] (fun _ => none) =
      .error "Unsupported URL scheme" ∧
    validate_url (some ⟨"http", some (.name "h")⟩) .relaxed [] (fun _ => none) = .ok () ∧
    validate_url (some ⟨"http", some (.ipLiteral (.v4 ⟨127, 0, 0, 1⟩))⟩) .strict []
        (fun _ => none) = .error "Webhook URL resolves to private/reserved IP" ∧
    validate_url (some ⟨"https", some (.ipLiteral (.v4 ⟨8, 8, 8, 8⟩))⟩) .strict []
        (fun _ => none) = .ok () := by
  refine ⟨?_, ?_, ?_, ?_⟩
  · exact C5_validate_url_ssrf.1 ⟨"ftp", none⟩ .strict [] (fun _ => none)
      (by decide) (by decide)
  · exact C5_validate_url_ssrf.2.1 ⟨"http", some (.name "h")⟩ [] (fun _ => none)
      (Or.inl rfl)
  · exact C5_validate_url_ssrf.2.2.1 "http" (.ipLiteral (.v4 ⟨127, 0, 0, 1⟩)) []
      (fun _ => none) [.v4 ⟨127, 0, 0, 1⟩] (Or.inl rfl) rfl
      (by intro a ha; simp at ha; subst ha; exact ⟨by decide, by decide, by decide, by decide⟩)
      ⟨.v4 ⟨127, 0, 0, 1⟩, by simp, by left; rfl, by simp⟩
  · exact C5_validate_url_ssrf.2.2.2 "https" (.ipLiteral (.v4 ⟨8, 8, 8, 8⟩)) []
      (fun _ => none) [.v4 ⟨8, 8, 8, 8⟩] (Or.inr rfl) rfl (by simp)
      (by intro a ha; simp at ha; subst ha; exact ⟨by decide, by decide, by decide, by decide⟩)
      (by
        intro a ha
        simp at ha
        subst ha
        simp only [privateClasses, ipv4PrivateClasses]
        decide)

/-- The capture group `\w+(?:\.\w+)*` matches the whole string: a leading
word character and a fully consumed maximal munch. -/
def isValidPath (p : String) : Bool :=
  match p.data with
  | [] => false
  | c :: rest => isWordChar c && (scanBody (c :: rest)).2.isEmpty

/-- C8: rendering a template with no occurrence of the placeholder pattern
returns the input unchanged; a placeholder whose (syntactically valid) path
resolves to nothing — e.g. `\x7b\x7bunknown.path\x7d\x7d` — expands to the
empty string, never an error. -/
theorem C8_template_render_roundtrip :
    (∀ (t : String) (ctx : Ctx), hasPlaceholder t.data = false → render t ctx = t) ∧
    (∀ (p : String) (ctx : Ctx), isValidPath p = true → resolve p ctx = none →
      render ("\x7b\x7b" ++ p ++ "\x7d\x7d") ctx = "") := by
  constructor
  · intro t ctx h
    rw [render, renderAux_no_placeholder _ _ _ h]
  · intro p ctx hvalid hres
    rcases hd : p.data with _ | ⟨c, rest⟩
    · rw [isValidPath, hd] at hvalid
      simp at hvalid
    · rw [isValidPath, hd] at hvalid
      rw [Bool.and_eq_true] at hvalid
      have hp₁ : p.data ≠ [] := by rw [hd]; simp
      have hp₂ : isWordChar (p.data.headD ' ') := by rw [hd]; exact hvalid.1
      have hp₃ : (scanBody p.data).2 = [] := by
        rw [hd]
        exact List.isEmpty_iff.mp hvalid.2
      have hdata : ("\x7b\x7b" ++ p ++ "\x7d\x7d").data =
          '{' :: '{' :: (p.data ++ '}' :: '}' :: []) := by
        simp [String.data_append]
      rw [render, hdata]
      simp only [List.length_cons]
      rw [renderAux, tryPlaceholder_valid p hp₁ hp₂ hp₃ []]
      dsimp only
      rw [hres, renderAux]
      rfl

/-- A sample template context. -/
def ctxEx : Ctx :=
  ⟨.obj [("name", .str "Alice")], .obj [], .obj [], "ep", "ep", "epid", "proj", "proj",
   "ten", "sid", "ts"⟩

/-- C8 witness: a placeholder-free template is returned unchanged and an
unknown path expands to the empty string. -/
theorem C8_template_render_witness :
    render "hello" ctxEx = "hello" ∧
    render "\x7b\x7bunknown.path\x7d\x7d" ctxEx = "" :=
  ⟨C8_template_render_roundtrip.1 "hello" ctxEx (by decide),
   C8_template_render_roundtrip.2 "unknown.path" ctxEx (by decide) rfl⟩

/-- C9: `encrypt` emits the fresh 12-byte nonce followed by the AEAD
ciphertext-and-tag; `decrypt` applied to that output with the same key
recovers the plaintext; and every input shorter than 12 bytes is rejected
with an error. The AEAD cipher, key derivation and UTF-8 coding are the
external collaborators, assumed correct at the used point. -/
theorem C9_crypto_wire_format
    (aeadEncrypt : List Nat → List Nat → List Nat → List Nat)
    (aeadDecrypt : List Nat → List Nat → List Nat → Option (List Nat))
    (derive_key : String → List Nat) (utf8Encode : String → List Nat)
    (utf8Decode : List Nat → Option String)
    (nonce : List Nat) (plaintext key : String)
    (hnonce : nonce.length = 12)
    (haead : aeadDecrypt (derive_key key) nonce
        (aeadEncrypt (derive_key key) nonce (utf8Encode plaintext)) =
      some (utf8Encode plaintext))
    (hutf8 : utf8Decode (utf8Encode plaintext) = some plaintext) :
    ((crypto_encrypt aeadEncrypt derive_key utf8Encode nonce plaintext key).take 12 =
      nonce) ∧
    ((crypto_encrypt aeadEncrypt derive_key utf8Encode nonce plaintext key).drop 12 =
      aeadEncrypt (derive_key key) nonce (utf8Encode plaintext)) ∧
    (crypto_decrypt aeadDecrypt derive_key utf8Decode
        (crypto_encrypt aeadEncrypt derive_key utf8Encode nonce plaintext key) key =
      .ok plaintext) ∧
    (∀ data : List Nat, data.length < 12 →
      crypto_decrypt aeadDecrypt derive_key utf8Decode data key =
        .error "Ciphertext too short") := by
  have htake : (crypto_encrypt aeadEncrypt derive_key utf8Encode nonce plaintext
      key).take 12 = nonce := by
    rw [crypto_encrypt, ← hnonce, List.take_left]
  have hdrop : (crypto_encrypt aeadEncrypt derive_key utf8Encode nonce plaintext
      key).drop 12 = aeadEncrypt (derive_key key) nonce (utf8Encode plaintext) := by
    rw [crypto_encrypt, ← hnonce, List.drop_left]
  refine ⟨htake, hdrop, ?_, ?_⟩
  · rw [crypto_decrypt, if_neg (by rw [crypto_encrypt]; simp [hnonce]), htake, hdrop,
      haead]
    dsimp only
    rw [hutf8]
  · intro data hlen
    rw [crypto_decrypt, if_pos hlen]

/-- C9 witness: round trip through the wire format with a trivial cipher
instantiation of the external AEAD. -/
theorem C9_crypto_wire_format_witness :
    crypto_decrypt (fun _ _ c => some c) (fun _ => [])
      (fun l => if l = [104, 105] then some "hi" else none)
      (crypto_encrypt (fun _ _ m => m) (fun _ => []) (fun s => s.data.map Char.toNat)
        (List.replicate 12 0) "hi" "k") "k" = .ok "hi" :=
  (C9_crypto_wire_format (fun _ _ m => m) (fun _ _ c => some c) (fun _ => [])
    (fun s => s.data.map Char.toNat)
    (fun l => if l = [104, 105] then some "hi" else none)
    (List.replicate 12 0) "hi" "k" (by decide) rfl (by decide)).2.2.1

end Webhooker
